import Mathlib

/-!
Shallow embedding of the realtime connection and messaging subsystem of the
SocialMedia_App repository (socket server, presence events, chat events,
admin events, and the message repository), together with proofs settling
the specification claims about it.

JavaScript Map and Set values are modelled as association lists and
duplicate-free lists of strings; timestamps are naturals.
-/

namespace SocialMedia

/-- Lookup in an association list modelling a JS Map: the first binding wins. -/
def findVal {β : Type} (k : String) : List (String × β) → Option β
  | [] => none
  | (k', v) :: rest => if k' = k then some v else findVal k rest

/-- JS Map.set: replace the first binding of the key in place, or append. -/
def setVal {β : Type} (k : String) (v : β) : List (String × β) → List (String × β)
  | [] => [(k, v)]
  | (k', v') :: rest => if k' = k then (k, v) :: rest else (k', v') :: setVal k v rest

/-- JS Map.delete: remove every binding of the key (keys are unique in a JS Map,
so this coincides with deleting the single entry). -/
def eraseVal {β : Type} (k : String) : List (String × β) → List (String × β)
  | [] => []
  | p :: rest => if p.1 = k then eraseVal k rest else p :: eraseVal k rest

/-- JS Set.add: append the element when absent, keeping insertion order. -/
def setAdd (l : List String) (x : String) : List String :=
  if x ∈ l then l else l ++ [x]

/-- JS Set.delete on a duplicate-free list. -/
def setDelete (l : List String) (x : String) : List String :=
  l.filter (fun y => y ≠ x)

/-! ### Session registry (src/socket/server.ts)

The server keeps two module-level maps: connectedUsers (userId to a record
with a tabs set) and userSockets (userId to a set of socket ids). -/

/-- The ConnectedUser record of server.ts. The socketId field stores the first
tab's id, as in the source. -/
structure ConnectedUser where
  userId : String
  socketId : String
  connectedAt : Nat
  lastActivity : Nat
  tabs : List String
deriving DecidableEq, Repr

/-- The two module-level maps of server.ts. -/
structure RegistryState where
  userSockets : List (String × List String)
  connectedUsers : List (String × ConnectedUser)
deriving DecidableEq, Repr

/-- Both maps start empty (rebuilt from scratch on process restart). -/
def initialRegistry : RegistryState := { userSockets := [], connectedUsers := [] }

/-- The io.on connection handler body of server.ts (lines 47-71): register the
socket id under the user in userSockets, then create or extend the
ConnectedUser entry. -/
def onConnection (st : RegistryState) (u s : String) (now : Nat) : RegistryState :=
  let sockets :=
    match findVal u st.userSockets with
    | none => setVal u (setAdd [] s) st.userSockets
    | some set => setVal u (setAdd set s) st.userSockets
  let users :=
    match findVal u st.connectedUsers with
    | none =>
        setVal u
          { userId := u, socketId := s, connectedAt := now, lastActivity := now,
            tabs := [s] } st.connectedUsers
    | some user =>
        setVal u { user with tabs := setAdd user.tabs s, lastActivity := now }
          st.connectedUsers
  { userSockets := sockets, connectedUsers := users }

/-- The socket.on disconnect handler of server.ts (lines 77-96): first the
userSockets block (deleting both entries when the socket set empties), then
the connectedUsers block re-reads the map and prunes the tabs set. -/
def onDisconnect (st : RegistryState) (u s : String) : RegistryState :=
  let st1 :=
    match findVal u st.userSockets with
    | some socketSet =>
        let socketSet' := setDelete socketSet s
        if socketSet'.length = 0 then
          { userSockets := eraseVal u st.userSockets,
            connectedUsers := eraseVal u st.connectedUsers }
        else
          { st with userSockets := setVal u socketSet' st.userSockets }
    | none => st
  match findVal u st1.connectedUsers with
  | some user =>
      let tabs' := setDelete user.tabs s
      if tabs'.length = 0 then
        { st1 with connectedUsers := eraseVal u st1.connectedUsers }
      else
        { st1 with connectedUsers := setVal u { user with tabs := tabs' } st1.connectedUsers }
  | none => st1

/-- The heartbeat handler of server.ts (lines 98-104): refresh lastActivity
when a ConnectedUser entry exists. -/
def onHeartbeat (st : RegistryState) (u : String) (now : Nat) : RegistryState :=
  match findVal u st.connectedUsers with
  | some user =>
      { st with connectedUsers := setVal u { user with lastActivity := now } st.connectedUsers }
  | none => st

/-- isUserOnline of server.ts: membership in connectedUsers. -/
def isUserOnline (st : RegistryState) (u : String) : Bool :=
  (findVal u st.connectedUsers).isSome

/-- getUserTabCount of server.ts. -/
def getUserTabCount (st : RegistryState) (u : String) : Nat :=
  match findVal u st.connectedUsers with
  | some user => user.tabs.length
  | none => 0

/-- getOnlineUsers of server.ts: the keys of connectedUsers. -/
def getOnlineUsers (st : RegistryState) : List String :=
  st.connectedUsers.map Prod.fst

/-- getOnlineUsersCount of server.ts. -/
def getOnlineUsersCount (st : RegistryState) : Nat :=
  st.connectedUsers.length

/-- One registration or deregistration step against the registry. -/
inductive RegStep where
  | connect (u s : String) (now : Nat)
  | disconnect (u s : String)
deriving DecidableEq, Repr

/-- Apply one step. -/
def applyRegStep (st : RegistryState) : RegStep → RegistryState
  | .connect u s now => onConnection st u s now
  | .disconnect u s => onDisconnect st u s

/-- Run a whole interleaving of steps from a given state. -/
def runRegSteps (st : RegistryState) : List RegStep → RegistryState
  | [] => st
  | step :: rest => runRegSteps (applyRegStep st step) rest

/-- Run an interleaving from the initial (empty) registry. -/
def applyRegSteps (steps : List RegStep) : RegistryState :=
  runRegSteps initialRegistry steps

/-- The registry invariant: connectedUsers and userSockets have the same
domain, the tabs set mirrors the socket set, and registered socket sets are
never empty. -/
def RegInv (st : RegistryState) : Prop :=
  ∀ u : String,
    ((findVal u st.connectedUsers).isSome ↔ (findVal u st.userSockets).isSome)
    ∧ (∀ e set, findVal u st.connectedUsers = some e →
        findVal u st.userSockets = some set → e.tabs = set)
    ∧ (∀ set, findVal u st.userSockets = some set → set ≠ [])

/-! ### Presence tracker (src/socket/events/presence.events.ts)

A module-level map userStatuses of userId to UserStatus, mutated only by the
presence:status_change handler and by the presence disconnect handler. -/

/-- The UserStatus enum of presence.events.ts. -/
inductive UserStatus where
  | online
  | away
  | busy
  | offline
deriving DecidableEq, Repr

/-- One io.emit broadcast of presence:user_status_changed. -/
structure StatusChangedEvent where
  userId : String
  status : UserStatus
deriving DecidableEq, Repr

/-- The in-memory state the presence and registry handlers share: the two
registry maps plus the userStatuses map. -/
structure SystemState where
  registry : RegistryState
  userStatuses : List (String × UserStatus)
deriving DecidableEq, Repr

/-- Empty process state. -/
def initialSystem : SystemState := { registry := initialRegistry, userStatuses := [] }

/-- The state-mutating socket events of the default namespace: connection,
disconnect, presence:status_change and heartbeat. The remaining presence
handlers (check_user, get_online_friends, get_stats) only read state. -/
inductive SysOp where
  | connect (u s : String) (now : Nat)
  | disconnect (u s : String)
  | statusChange (u : String) (status : UserStatus)
  | heartbeat (u : String) (now : Nat)
deriving DecidableEq, Repr

/-- Apply one event, returning the new state together with the
presence:user_status_changed broadcasts it emitted.

For a disconnect, server.ts registers its registry-cleanup listener before
registerPresenceEvents adds the presence listener, and socket.io runs
listeners of one event in registration order: so the registry is cleaned up
first, and the presence handler then broadcasts offline exactly when
isUserOnline is already false. -/
def applySysOp (st : SystemState) : SysOp → SystemState × List StatusChangedEvent
  | .connect u s now =>
      ({ st with registry := onConnection st.registry u s now }, [])
  | .disconnect u s =>
      let reg' := onDisconnect st.registry u s
      if isUserOnline reg' u then
        ({ st with registry := reg' }, [])
      else
        ({ registry := reg', userStatuses := setVal u UserStatus.offline st.userStatuses },
         [{ userId := u, status := UserStatus.offline }])
  | .statusChange u status =>
      ({ st with userStatuses := setVal u status st.userStatuses },
       [{ userId := u, status := status }])
  | .heartbeat u now =>
      ({ st with registry := onHeartbeat st.registry u now }, [])

/-- Run a sequence of events from a state, discarding the emitted broadcasts. -/
def runSysOps (st : SystemState) : List SysOp → SystemState
  | [] => st
  | op :: rest => runSysOps (applySysOp st op).1 rest

/-- Run a sequence of events from the initial state. -/
def applySysOps (ops : List SysOp) : SystemState :=
  runSysOps initialSystem ops

/-- The reply the presence:check_user handler passes to its callback:
status defaults to OFFLINE when the user never set one. -/
structure CheckUserReply where
  success : Bool
  isOnline : Bool
  status : UserStatus
  tabCount : Nat
deriving DecidableEq, Repr

/-- The presence:check_user handler of presence.events.ts (lines 38-67). -/
def handleCheckUser (st : SystemState) (target : String) : CheckUserReply :=
  { success := true
    isOnline := isUserOnline st.registry target
    status := (findVal target st.userStatuses).getD UserStatus.offline
    tabCount := getUserTabCount st.registry target }

/-- One entry of the onlineFriends list the presence:get_online_friends
handler returns: status defaults to ONLINE when the user never set one. -/
structure OnlineFriendEntry where
  userId : String
  status : UserStatus
  tabCount : Nat
deriving DecidableEq, Repr

/-- The presence:get_online_friends handler of presence.events.ts
(lines 69-101): filter the candidate ids by isUserOnline, then annotate. -/
def handleGetOnlineFriends (st : SystemState) (friendIds : List String) :
    List OnlineFriendEntry :=
  (friendIds.filter (fun f => isUserOnline st.registry f)).map (fun f =>
    { userId := f
      status := (findVal f st.userStatuses).getD UserStatus.online
      tabCount := getUserTabCount st.registry f })

/-! ### Message store (src/db/model/message.model.ts and
src/db/repositories: MessageRepository) -/

/-- The MessageStatus enum of message.model.ts. -/
inductive MessageStatus where
  | sent
  | delivered
  | read
  | failed
deriving DecidableEq, Repr

/-- A message document, restricted to the fields the socket handlers and the
repository queries under verification touch. Recipient id sets are lists of
user ids; createdAt is a natural timestamp. -/
structure MessageDoc where
  id : String
  conversation : String
  sender : String
  content : String
  messageType : String
  replyTo : Option String
  fileUrl : Option String
  createdAt : Nat
  status : MessageStatus
  deliveredTo : List String
  readBy : List String
  isEdited : Bool
  isDeleted : Bool
  deletedFor : List String
deriving DecidableEq, Repr

/-- Mongo findById on the collection: first document with the id. -/
def findDoc : List MessageDoc → String → Option MessageDoc
  | [], _ => none
  | m :: rest, msgId => if m.id = msgId then some m else findDoc rest msgId

/-- Mongo findByIdAndUpdate with new set to true: update the first document
with the id in place and return the updated document, or leave the
collection unchanged and return none. -/
def findByIdAndUpdate (store : List MessageDoc) (msgId : String)
    (f : MessageDoc → MessageDoc) : List MessageDoc × Option MessageDoc :=
  match store with
  | [] => ([], none)
  | m :: rest =>
      if m.id = msgId then (f m :: rest, some (f m))
      else
        let r := findByIdAndUpdate rest msgId f
        (m :: r.1, r.2)

/-- One Mongo addToSet step on an id set. -/
def addToSet (l : List String) (x : String) : List String :=
  if x ∈ l then l else l ++ [x]

/-- The update document of MessageRepository.markAsDelivered: addToSet the
user into deliveredTo and overwrite status with delivered. -/
def updateDelivered (userId : String) (m : MessageDoc) : MessageDoc :=
  { m with deliveredTo := addToSet m.deliveredTo userId, status := MessageStatus.delivered }

/-- The update document of MessageRepository.markAsRead: addToSet the user
into readBy and overwrite status with read (deliveredTo is not touched). -/
def updateRead (userId : String) (m : MessageDoc) : MessageDoc :=
  { m with readBy := addToSet m.readBy userId, status := MessageStatus.read }

/-- MessageRepository.markAsDelivered. -/
def markAsDelivered (store : List MessageDoc) (msgId userId : String) :
    List MessageDoc × Option MessageDoc :=
  findByIdAndUpdate store msgId (updateDelivered userId)

/-- MessageRepository.markAsRead. -/
def markAsRead (store : List MessageDoc) (msgId userId : String) :
    List MessageDoc × Option MessageDoc :=
  findByIdAndUpdate store msgId (updateRead userId)

/-! ### Conversation store (src/db/repositories: ConversationRepository) -/

/-- A conversation document, restricted to id and participants. -/
structure ConvDoc where
  id : String
  participants : List String
deriving DecidableEq, Repr

/-- Mongo findById on the conversation collection. -/
def findConv : List ConvDoc → String → Option ConvDoc
  | [], _ => none
  | c :: rest, convId => if c.id = convId then some c else findConv rest convId

/-- ConversationRepository.isParticipant: findOne with both the id and the
userId in participants, coerced to a boolean. -/
def isParticipant (convStore : List ConvDoc) (convId userId : String) : Bool :=
  match findConv convStore convId with
  | some c => decide (userId ∈ c.participants)
  | none => false

/-! ### Chat event handlers (socket events: registerChatEvents) -/

/-- The shape of a callback acknowledgement. -/
structure Ack where
  success : Bool
  error : Option String
deriving DecidableEq, Repr

/-- One emitToUser call: the user room targeted and the event name. -/
structure ChatEmit where
  target : String
  event : String
deriving DecidableEq, Repr

/-- The chat:send_message payload (fields the handler destructures; a client
may also send reply and file fields, carried through to the document). -/
structure SendMessagePayload where
  conversationId : String
  content : String
  messageType : String
  replyTo : Option String
  fileUrl : Option String
deriving DecidableEq, Repr

/-- The chat:send_message handler: validate presence of conversationId and
content, check participant membership, create the message document with
status sent and empty receipt sets, fan out chat:new_message to every other
participant and chat:message_sent to the sender, and acknowledge. The
database-assigned id and creation time are parameters. -/
def handleSendMessage (convStore : List ConvDoc) (msgStore : List MessageDoc)
    (caller : String) (payload : SendMessagePayload) (newId : String) (now : Nat) :
    List MessageDoc × Ack × List ChatEmit :=
  if payload.conversationId = "" ∨ payload.content = "" then
    (msgStore, { success := false, error := some "Conversation ID and content are required" }, [])
  else if ¬ isParticipant convStore payload.conversationId caller then
    (msgStore,
     { success := false, error := some "You are not a participant of this conversation" }, [])
  else
    let doc : MessageDoc :=
      { id := newId
        conversation := payload.conversationId
        sender := caller
        content := payload.content
        messageType := payload.messageType
        replyTo := payload.replyTo
        fileUrl := payload.fileUrl
        createdAt := now
        status := MessageStatus.sent
        deliveredTo := []
        readBy := []
        isEdited := false
        isDeleted := false
        deletedFor := [] }
    let fanout :=
      match findConv convStore payload.conversationId with
      | some conv =>
          (conv.participants.filter (fun p => p ≠ caller)).map
            (fun p => { target := p, event := "chat:new_message" })
      | none => []
    (msgStore ++ [doc],
     { success := true, error := none },
     fanout ++ [{ target := caller, event := "chat:message_sent" }])

/-- The chat:typing handler: silently no-op on a missing conversation id or a
non-participant caller, otherwise fan out chat:user_typing to the other
participants. It persists nothing and never acknowledges. -/
def handleTyping (convStore : List ConvDoc) (caller : String) (convId : String) :
    List ChatEmit :=
  if convId = "" then []
  else if ¬ isParticipant convStore convId caller then []
  else
    match findConv convStore convId with
    | some conv =>
        (conv.participants.filter (fun p => p ≠ caller)).map
          (fun p => { target := p, event := "chat:user_typing" })
    | none => []

/-- The chat:join_room handler: a participant check, then socket.join on the
conversation room. The caller's current room list is threaded explicitly. -/
def handleJoinRoom (convStore : List ConvDoc) (caller : String) (convId : String)
    (rooms : List String) : List String × Ack :=
  if ¬ isParticipant convStore convId caller then
    (rooms, { success := false, error := some "You are not a participant of this conversation" })
  else
    (setAdd rooms ("conversation:" ++ convId), { success := true, error := none })

/-- One receipt emit: the sender room targeted, the event name, the message
id and the acknowledging user carried in the payload. -/
structure ReceiptEmit where
  target : String
  event : String
  messageId : String
  actor : String
deriving DecidableEq, Repr

/-- The chat:message_delivered handler: markAsDelivered, then notify the
sender only when a document was found; the callback reports success in
either case. -/
def handleMessageDelivered (store : List MessageDoc) (caller : String) (msgId : String) :
    List MessageDoc × Ack × List ReceiptEmit :=
  let r := markAsDelivered store msgId caller
  match r.2 with
  | some m =>
      (r.1, { success := true, error := none },
       [{ target := m.sender, event := "chat:message_delivered", messageId := msgId,
          actor := caller }])
  | none => (r.1, { success := true, error := none }, [])

/-- The chat:message_read handler: markAsRead, then notify the sender only
when a document was found; the callback reports success in either case. -/
def handleMessageRead (store : List MessageDoc) (caller : String) (msgId : String) :
    List MessageDoc × Ack × List ReceiptEmit :=
  let r := markAsRead store msgId caller
  match r.2 with
  | some m =>
      (r.1, { success := true, error := none },
       [{ target := m.sender, event := "chat:message_read_receipt", messageId := msgId,
          actor := caller }])
  | none => (r.1, { success := true, error := none }, [])

/-! ### Paginated fetch (MessageRepository.getConversationMessages and the
chat:get_messages handler) -/

/-- Newest-first comparison on creation time (the sort createdAt minus-one of
the repository query). -/
def byCreatedDesc (a b : MessageDoc) : Prop := b.createdAt ≤ a.createdAt

instance : DecidableRel byCreatedDesc := fun a b => Nat.decLe b.createdAt a.createdAt

instance : IsTotal MessageDoc byCreatedDesc :=
  ⟨fun a b => Nat.le_total b.createdAt a.createdAt⟩

instance : IsTrans MessageDoc byCreatedDesc :=
  ⟨fun _ _ _ h1 h2 => Nat.le_trans h2 h1⟩

/-- The MessageQueryOptions fields getConversationMessages destructures
(population flags are irrelevant to the persisted data and omitted). -/
structure MessageQueryOptions where
  page : Option Nat
  limit : Option Nat
  beforeDate : Option Nat
  afterDate : Option Nat
  messageType : Option String
deriving DecidableEq, Repr

/-- The find filter getConversationMessages builds: conversation id match,
isDeleted false, deletedFor not containing the user, optional message type
and strict createdAt cursor bounds. -/
def messageMatchesQuery (convId userId : String) (opts : MessageQueryOptions)
    (m : MessageDoc) : Bool :=
  decide (m.conversation = convId)
  && decide (m.isDeleted = false)
  && decide (userId ∉ m.deletedFor)
  && (match opts.messageType with
      | some t => decide (m.messageType = t)
      | none => true)
  && (match opts.beforeDate with
      | some b => decide (m.createdAt < b)
      | none => true)
  && (match opts.afterDate with
      | some a => decide (a < m.createdAt)
      | none => true)

/-- The record getConversationMessages resolves with, plus a count of the
separate countDocuments queries the call issued. -/
structure MessagesPage where
  data : List MessageDoc
  total : Nat
  page : Nat
  limit : Nat
  hasMore : Bool
  countQueries : Nat
deriving DecidableEq, Repr

/-- MessageRepository.getConversationMessages: filter, sort newest-first
(Mongo applies the sort before skip and limit regardless of chaining order),
skip, over-fetch limit plus one to decide hasMore, slice back to limit,
issue a countDocuments on the same filter for the total field, and reverse
the slice so the caller receives oldest-first. -/
def getConversationMessages (store : List MessageDoc) (convId userId : String)
    (opts : MessageQueryOptions) : MessagesPage :=
  let page := opts.page.getD 1
  let limit := opts.limit.getD 50
  let skip := (page - 1) * limit
  let filtered := store.filter (messageMatchesQuery convId userId opts)
  let sorted := List.insertionSort byCreatedDesc filtered
  let results := (sorted.drop skip).take (limit + 1)
  let hasMore := decide (limit < results.length)
  let data := if hasMore then results.take limit else results
  { data := data.reverse
    total := filtered.length
    page := page
    limit := limit
    hasMore := hasMore
    countQueries := 1 }

/-- The chat:get_messages payload: the handler destructures conversationId,
page, limit and beforeDate; a client-supplied afterDate field is part of the
wire object but never read. -/
structure GetMessagesPayload where
  conversationId : String
  page : Option Nat
  limit : Option Nat
  beforeDate : Option Nat
  afterDate : Option Nat
deriving DecidableEq, Repr

/-- The result the chat:get_messages callback receives, flattened. -/
structure GetMessagesResult where
  success : Bool
  error : Option String
  messages : List MessageDoc
  total : Nat
  page : Nat
  limit : Nat
  hasMore : Bool
  countQueries : Nat
deriving DecidableEq, Repr

/-- The chat:get_messages handler: participant check, then the repository
call with page, limit and beforeDate only (afterDate and messageType are
never forwarded). -/
def handleGetMessages (convStore : List ConvDoc) (msgStore : List MessageDoc)
    (caller : String) (payload : GetMessagesPayload) : GetMessagesResult :=
  if ¬ isParticipant convStore payload.conversationId caller then
    { success := false, error := some "You are not a participant of this conversation",
      messages := [], total := 0, page := 0, limit := 0, hasMore := false, countQueries := 0 }
  else
    let r := getConversationMessages msgStore payload.conversationId caller
      { page := some (payload.page.getD 1)
        limit := some (payload.limit.getD 50)
        beforeDate := payload.beforeDate
        afterDate := none
        messageType := none }
    { success := true, error := none, messages := r.data, total := r.total,
      page := r.page, limit := r.limit, hasMore := r.hasMore, countQueries := r.countQueries }

/-! ### Socket.io routing for the admin namespace (registerAdminEvents and
the admin namespace of server.ts)

Rooms are scoped to a namespace: an emit through a namespace reaches exactly
the sockets of that namespace that joined the targeted room. Sockets of the
default namespace join their own id room and the room user colon userId
(server.ts line 71); admin-namespace sockets join only their own id room. -/

/-- One live transport-level socket: its id, its namespace, its owning user
and the rooms it joined within its namespace. -/
structure SocketConn where
  id : String
  nsp : String
  userId : String
  rooms : List String
deriving DecidableEq, Repr

/-- A default-namespace connection as server.ts configures it. -/
def defaultConn (u s : String) : SocketConn :=
  { id := s, nsp := "/", userId := u, rooms := [s, "user:" ++ u] }

/-- An admin-namespace connection: authenticated and role-gated, joining no
room beyond its own id. -/
def adminConn (u s : String) : SocketConn :=
  { id := s, nsp := "/admin", userId := u, rooms := [s] }

/-- The sockets an emit through the given namespace to the given room
reaches. -/
def nsEmitRecipients (world : List SocketConn) (nsp room : String) : List SocketConn :=
  world.filter (fun c => decide (c.nsp = nsp ∧ room ∈ c.rooms))

/-- The connections living on the default channel. -/
def defaultChannelConns (world : List SocketConn) : List SocketConn :=
  world.filter (fun c => decide (c.nsp = "/"))

/-- The outcome of admin:kick_user: the callback acknowledgement and the
socket ids that actually received the admin:kicked event. -/
structure KickOutcome where
  ack : Ack
  recipients : List String
deriving DecidableEq, Repr

/-- The admin:kick_user handler of registerAdminEvents: when connectedUsers
holds the target, emit admin:kicked through the admin namespace to the room
user colon targetId and acknowledge success; otherwise acknowledge the
distinct not-online failure and emit nothing. -/
def handleKickUser (world : List SocketConn) (reg : RegistryState) (targetId : String) :
    KickOutcome :=
  match findVal targetId reg.connectedUsers with
  | some _ =>
      { ack := { success := true, error := none }
        recipients := (nsEmitRecipients world "/admin" ("user:" ++ targetId)).map
          (fun c => c.id) }
  | none =>
      { ack := { success := false, error := some "User is not online" }, recipients := [] }

/-- The outcome of admin:broadcast_message: the socket ids that received the
admin:system_message event, and the admin socket's own confirmation. -/
structure BroadcastOutcome where
  recipients : List String
  confirmedToSender : Bool
deriving DecidableEq, Repr

/-- The admin:broadcast_message handler of registerAdminEvents: it emits
admin:system_message through the admin namespace to the room named slash,
then emits admin:broadcast_sent back to the calling admin socket. -/
def handleBroadcastMessage (world : List SocketConn) : BroadcastOutcome :=
  { recipients := (nsEmitRecipients world "/admin" "/").map (fun c => c.id)
    confirmedToSender := true }

/-! ### Concrete fixtures used by witnesses and counterexamples -/

/-- A stored text message from alice in conversation c1, not yet delivered
or read by anyone. -/
def sampleMsg : MessageDoc :=
  { id := "m1", conversation := "c1", sender := "alice", content := "hi",
    messageType := "text", replyTo := none, fileUrl := none, createdAt := 10,
    status := MessageStatus.sent, deliveredTo := [], readBy := [],
    isEdited := false, isDeleted := false, deletedFor := [] }

/-- A copy of the sample message with another id and creation time. -/
def msgAt (i : String) (t : Nat) : MessageDoc :=
  { sampleMsg with id := i, createdAt := t }

/-- A one-to-one conversation between alice and bob. -/
def sampleConv : ConvDoc := { id := "c1", participants := ["alice", "bob"] }

/-! ### Association-list map lemmas -/

theorem findVal_setVal_self {β : Type} (k : String) (v : β) (l : List (String × β)) :
    findVal k (setVal k v l) = some v := by
  induction l with
  | nil => simp [findVal, setVal]
  | cons p rest ih =>
      by_cases h : p.1 = k
      · simp [setVal, findVal, h]
      · simp [setVal, findVal, h, ih]

theorem findVal_setVal_ne {β : Type} {k k' : String} (v : β) (l : List (String × β))
    (h : k' ≠ k) : findVal k' (setVal k v l) = findVal k' l := by
  induction l with
  | nil =>
      simp [findVal, setVal]
      intro hk
      exact absurd hk.symm h
  | cons p rest ih =>
      by_cases hp : p.1 = k
      · simp only [setVal, hp, if_pos rfl]
        have hne : ¬ (k = k') := fun hkk => h hkk.symm
        have hne' : ¬ (p.1 = k') := by rw [hp]; exact hne
        simp [findVal, hne, hne']
      · simp only [setVal, if_neg hp]
        simp [findVal, ih]

theorem findVal_eraseVal_self {β : Type} (k : String) (l : List (String × β)) :
    findVal k (eraseVal k l) = none := by
  induction l with
  | nil => simp [findVal, eraseVal]
  | cons p rest ih =>
      by_cases h : p.1 = k
      · simpa [eraseVal, h] using ih
      · simpa [eraseVal, findVal, h] using ih

theorem findVal_eraseVal_ne {β : Type} {k k' : String} (l : List (String × β))
    (h : k' ≠ k) : findVal k' (eraseVal k l) = findVal k' l := by
  induction l with
  | nil => simp [findVal, eraseVal]
  | cons p rest ih =>
      by_cases hp : p.1 = k
      · have hne : ¬ (p.1 = k') := by rw [hp]; exact fun hkk => h hkk.symm
        rw [eraseVal, if_pos hp, ih]
        simp [findVal, hne]
      · rw [eraseVal, if_neg hp]
        simp [findVal, ih]

theorem not_mem_keys_of_findVal_none {β : Type} {k : String} {l : List (String × β)}
    (h : findVal k l = none) : k ∉ l.map Prod.fst := by
  induction l with
  | nil => simp
  | cons p rest ih =>
      by_cases hp : p.1 = k
      · simp [findVal, hp] at h
      · simp only [findVal, hp, if_false] at h
        simp only [List.map_cons, List.mem_cons]
        intro hc
        rcases hc with hc | hc
        · exact hp hc.symm
        · exact ih h hc

theorem setAdd_ne_nil (l : List String) (x : String) : setAdd l x ≠ [] := by
  unfold setAdd
  by_cases h : x ∈ l
  · simp only [if_pos h]
    intro hnil
    rw [hnil] at h
    exact absurd h (List.not_mem_nil x)
  · simp [if_neg h]

/-! ### Registry invariant preservation -/

theorem regInv_initial : RegInv initialRegistry := by
  intro u
  refine ⟨by simp [initialRegistry, findVal], ?_, ?_⟩
  · intro e set he
    simp [initialRegistry, findVal] at he
  · intro set hs
    simp [initialRegistry, findVal] at hs

theorem regInv_onConnection (st : RegistryState) (u s : String) (now : Nat)
    (h : RegInv st) : RegInv (onConnection st u s now) := by
  intro v
  by_cases hv : v = u
  · subst hv
    cases hus : findVal v st.userSockets with
    | none =>
        cases hcu : findVal v st.connectedUsers with
        | none =>
            simp only [onConnection, hus, hcu]
            refine ⟨?_, ?_, ?_⟩
            · simp [findVal_setVal_self]
            · intro e set he hset
              rw [findVal_setVal_self] at he hset
              cases he; cases hset
              rfl
            · intro set hset
              rw [findVal_setVal_self] at hset
              cases hset
              exact setAdd_ne_nil [] s
        | some e =>
            exfalso
            have := (h v).1
            rw [hus, hcu] at this
            simpa using this.mp
    | some set =>
        cases hcu : findVal v st.connectedUsers with
        | none =>
            exfalso
            have := (h v).1
            rw [hus, hcu] at this
            simpa using this.mpr
        | some e =>
            have htabs : e.tabs = set := (h v).2.1 e set hcu hus
            simp only [onConnection, hus, hcu]
            refine ⟨?_, ?_, ?_⟩
            · simp [findVal_setVal_self]
            · intro e' set' he' hset'
              rw [findVal_setVal_self] at he' hset'
              cases he'; cases hset'
              simp [htabs]
            · intro set' hset'
              rw [findVal_setVal_self] at hset'
              cases hset'
              exact setAdd_ne_nil set s
  · have h1 : findVal v (onConnection st u s now).userSockets = findVal v st.userSockets := by
      simp only [onConnection]
      cases hus : findVal u st.userSockets <;>
        simp [findVal_setVal_ne _ _ hv]
    have h2 : findVal v (onConnection st u s now).connectedUsers =
        findVal v st.connectedUsers := by
      simp only [onConnection]
      cases hcu : findVal u st.connectedUsers <;>
        simp [findVal_setVal_ne _ _ hv]
    refine ⟨?_, ?_, ?_⟩
    · rw [h1, h2]; exact (h v).1
    · intro e set he hset
      rw [h2] at he; rw [h1] at hset
      exact (h v).2.1 e set he hset
    · intro set hset
      rw [h1] at hset
      exact (h v).2.2 set hset

theorem regInv_onDisconnect (st : RegistryState) (u s : String)
    (h : RegInv st) : RegInv (onDisconnect st u s) := by
  cases hus : findVal u st.userSockets with
  | none =>
      have hcu : findVal u st.connectedUsers = none := by
        cases hcu' : findVal u st.connectedUsers with
        | none => rfl
        | some e =>
            exfalso
            have := (h u).1
            rw [hus, hcu'] at this
            simpa using this.mp
      simp only [onDisconnect, hus, hcu]
      exact h
  | some set =>
      have hcu : ∃ e, findVal u st.connectedUsers = some e := by
        have := (h u).1
        rw [hus] at this
        cases hcu' : findVal u st.connectedUsers with
        | none =>
            exfalso
            rw [hcu'] at this
            simpa using this.mpr
        | some e => exact ⟨e, rfl⟩
      obtain ⟨e, hcu⟩ := hcu
      have htabs : e.tabs = set := (h u).2.1 e set hcu hus
      by_cases hlen : (setDelete set s).length = 0
      · simp only [onDisconnect, hus, if_pos hlen, findVal_eraseVal_self]
        intro v
        by_cases hv : v = u
        · subst hv
          refine ⟨?_, ?_, ?_⟩
          · rw [findVal_eraseVal_self, findVal_eraseVal_self]
            exact Iff.rfl
          · intro e' set' he'
            rw [findVal_eraseVal_self] at he'
            exact absurd he' (by simp)
          · intro set' hset'
            rw [findVal_eraseVal_self] at hset'
            exact absurd hset' (by simp)
        · refine ⟨?_, ?_, ?_⟩
          · rw [findVal_eraseVal_ne _ hv, findVal_eraseVal_ne _ hv]
            exact (h v).1
          · intro e' set' he' hset'
            rw [findVal_eraseVal_ne _ hv] at he' hset'
            exact (h v).2.1 e' set' he' hset'
          · intro set' hset'
            rw [findVal_eraseVal_ne _ hv] at hset'
            exact (h v).2.2 set' hset'
      · have htabs' : setDelete e.tabs s = setDelete set s := by rw [htabs]
        have hlen' : ¬ ((setDelete e.tabs s).length = 0) := by rw [htabs']; exact hlen
        simp only [onDisconnect, hus, if_neg hlen, hcu, if_neg hlen']
        intro v
        by_cases hv : v = u
        · subst hv
          refine ⟨?_, ?_, ?_⟩
          · rw [findVal_setVal_self, findVal_setVal_self]
            simp
          · intro e' set' he' hset'
            rw [findVal_setVal_self] at he' hset'
            cases he'; cases hset'
            simpa using htabs'
          · intro set' hset'
            rw [findVal_setVal_self] at hset'
            cases hset'
            intro hnil
            exact hlen (by rw [hnil]; rfl)
        · refine ⟨?_, ?_, ?_⟩
          · rw [findVal_setVal_ne _ _ hv, findVal_setVal_ne _ _ hv]
            exact (h v).1
          · intro e' set' he' hset'
            rw [findVal_setVal_ne _ _ hv] at he'
            rw [findVal_setVal_ne _ _ hv] at hset'
            exact (h v).2.1 e' set' he' hset'
          · intro set' hset'
            rw [findVal_setVal_ne _ _ hv] at hset'
            exact (h v).2.2 set' hset'

theorem regInv_onHeartbeat (st : RegistryState) (u : String) (now : Nat)
    (h : RegInv st) : RegInv (onHeartbeat st u now) := by
  cases hcu : findVal u st.connectedUsers with
  | none =>
      simp only [onHeartbeat, hcu]
      exact h
  | some e =>
      have hcus : ∃ set, findVal u st.userSockets = some set := by
        have := (h u).1
        rw [hcu] at this
        cases hus' : findVal u st.userSockets with
        | none =>
            exfalso
            rw [hus'] at this
            simpa using this.mp
        | some set => exact ⟨set, rfl⟩
      obtain ⟨set, hus⟩ := hcus
      have htabs : e.tabs = set := (h u).2.1 e set hcu hus
      simp only [onHeartbeat, hcu]
      intro v
      by_cases hv : v = u
      · subst hv
        refine ⟨?_, ?_, ?_⟩
        · rw [findVal_setVal_self, hus]
          simp
        · intro e' set' he' hset'
          rw [findVal_setVal_self] at he'
          rw [hus] at hset'
          cases he'; cases hset'
          simpa using htabs
        · intro set' hset'
          exact (h v).2.2 set' hset'
      · refine ⟨?_, ?_, ?_⟩
        · rw [findVal_setVal_ne _ _ hv]
          exact (h v).1
        · intro e' set' he' hset'
          rw [findVal_setVal_ne _ _ hv] at he'
          exact (h v).2.1 e' set' he' hset'
        · intro set' hset'
          exact (h v).2.2 set' hset'

theorem regInv_applyRegStep (st : RegistryState) (step : RegStep)
    (h : RegInv st) : RegInv (applyRegStep st step) := by
  cases step with
  | connect u s now => exact regInv_onConnection st u s now h
  | disconnect u s => exact regInv_onDisconnect st u s h

theorem regInv_runRegSteps (steps : List RegStep) (st : RegistryState)
    (h : RegInv st) : RegInv (runRegSteps st steps) := by
  induction steps generalizing st with
  | nil => exact h
  | cons step rest ih => exact ih _ (regInv_applyRegStep st step h)

theorem regInv_applyRegSteps (steps : List RegStep) : RegInv (applyRegSteps steps) :=
  regInv_runRegSteps steps initialRegistry regInv_initial

theorem setDelete_self_singleton (s : String) : setDelete [s] s = [] := by
  simp [setDelete]

theorem mem_setDelete_of_ne {t s : String} {l : List String} (ht : t ∈ l) (hts : t ≠ s) :
    t ∈ setDelete l s := by
  simp [setDelete, List.mem_filter, ht, hts]

theorem onDisconnect_last_tab (st : RegistryState) (u s : String)
    (hus : findVal u st.userSockets = some [s]) :
    onDisconnect st u s =
      { userSockets := eraseVal u st.userSockets,
        connectedUsers := eraseVal u st.connectedUsers } := by
  have hdel : setDelete [s] s = [] := setDelete_self_singleton s
  have hlen : (setDelete [s] s).length = 0 := by rw [hdel]; rfl
  simp only [onDisconnect, hus, if_pos hlen, findVal_eraseVal_self]

theorem isUserOnline_onDisconnect_other_tab (st : RegistryState) (u s t : String)
    (h : RegInv st) {set : List String} (hus : findVal u st.userSockets = some set)
    (ht : t ∈ set) (hts : t ≠ s) :
    isUserOnline (onDisconnect st u s) u = true := by
  have hcu : ∃ e, findVal u st.connectedUsers = some e := by
    have := (h u).1
    rw [hus] at this
    cases hcu' : findVal u st.connectedUsers with
    | none =>
        exfalso
        rw [hcu'] at this
        simpa using this.mpr
    | some e => exact ⟨e, rfl⟩
  obtain ⟨e, hcu⟩ := hcu
  have htabs : e.tabs = set := (h u).2.1 e set hcu hus
  have hmem : t ∈ setDelete set s := mem_setDelete_of_ne ht hts
  have hlen : ¬ ((setDelete set s).length = 0) := by
    intro h0
    rw [List.length_eq_zero] at h0
    rw [h0] at hmem
    exact absurd hmem (List.not_mem_nil t)
  have hlen' : ¬ ((setDelete e.tabs s).length = 0) := by rw [htabs]; exact hlen
  simp only [onDisconnect, hus, if_neg hlen, hcu, if_neg hlen', isUserOnline,
    findVal_setVal_self, Option.isSome_some]

/-- Claim C2: after every interleaving of connection registration and
deregistration steps against the session registry, isUserOnline holds for a
user iff that user has at least one registered connection (a non-empty
userSockets entry); the connectedUsers session entry exists iff the tab
count is positive; and deregistering the last tab removes the session entry
entirely, so the tab count drops from one to zero and the user leaves the
online set. -/
theorem online_iff_registered_connection (steps : List RegStep) (u s : String) :
    (isUserOnline (applyRegSteps steps) u = true ↔
        ∃ set, findVal u (applyRegSteps steps).userSockets = some set ∧ set ≠ [])
    ∧ ((findVal u (applyRegSteps steps).connectedUsers).isSome ↔
        1 ≤ getUserTabCount (applyRegSteps steps) u)
    ∧ (findVal u (applyRegSteps steps).userSockets = some [s] →
        getUserTabCount (applyRegSteps steps) u = 1
        ∧ isUserOnline (onDisconnect (applyRegSteps steps) u s) u = false
        ∧ getUserTabCount (onDisconnect (applyRegSteps steps) u s) u = 0
        ∧ u ∉ getOnlineUsers (onDisconnect (applyRegSteps steps) u s)) := by
  have h := regInv_applyRegSteps steps
  refine ⟨?_, ?_, ?_⟩
  · constructor
    · intro hon
      rw [isUserOnline] at hon
      have hiff := (h u).1
      have hsome := hiff.mp hon
      cases hus : findVal u (applyRegSteps steps).userSockets with
      | none => rw [hus] at hsome; exact absurd hsome (by simp)
      | some set => exact ⟨set, rfl, (h u).2.2 set hus⟩
    · rintro ⟨set, hus, _⟩
      rw [isUserOnline]
      exact ((h u).1).mpr (by rw [hus]; rfl)
  · constructor
    · intro hcu
      cases hcu' : findVal u (applyRegSteps steps).connectedUsers with
      | none => rw [hcu'] at hcu; exact absurd hcu (by simp)
      | some e =>
          have hsome := ((h u).1).mp (by rw [hcu']; rfl)
          cases hus : findVal u (applyRegSteps steps).userSockets with
          | none => rw [hus] at hsome; exact absurd hsome (by simp)
          | some set =>
              have htabs : e.tabs = set := (h u).2.1 e set hcu' hus
              have hne : set ≠ [] := (h u).2.2 set hus
              simp only [getUserTabCount, hcu', htabs]
              exact Nat.succ_le_of_lt (List.length_pos.mpr hne)
    · intro hcount
      cases hcu' : findVal u (applyRegSteps steps).connectedUsers with
      | none =>
          rw [getUserTabCount, hcu'] at hcount
          exact absurd hcount (by simp)
      | some e => rfl
  · intro hus
    have hcu : ∃ e, findVal u (applyRegSteps steps).connectedUsers = some e := by
      have := (h u).1
      rw [hus] at this
      cases hcu' : findVal u (applyRegSteps steps).connectedUsers with
      | none =>
          exfalso
          rw [hcu'] at this
          simpa using this.mpr
      | some e => exact ⟨e, rfl⟩
    obtain ⟨e, hcu⟩ := hcu
    have htabs : e.tabs = [s] := (h u).2.1 e [s] hcu hus
    have hafter := onDisconnect_last_tab (applyRegSteps steps) u s hus
    refine ⟨?_, ?_, ?_, ?_⟩
    · simp only [getUserTabCount, hcu, htabs]
      rfl
    · rw [hafter, isUserOnline]
      simp [findVal_eraseVal_self]
    · rw [hafter, getUserTabCount]
      simp [findVal_eraseVal_self]
    · rw [hafter, getOnlineUsers]
      exact not_mem_keys_of_findVal_none (findVal_eraseVal_self u _)

/-- Witness for claim C2 at a concrete interleaving: one user connects a
single tab and then disconnects it. -/
theorem online_iff_registered_connection_witness :
    findVal "u1" (applyRegSteps [RegStep.connect "u1" "s1" 0]).userSockets = some ["s1"]
    ∧ (getUserTabCount (applyRegSteps [RegStep.connect "u1" "s1" 0]) "u1" = 1
       ∧ isUserOnline (onDisconnect (applyRegSteps [RegStep.connect "u1" "s1" 0]) "u1" "s1") "u1" = false
       ∧ getUserTabCount (onDisconnect (applyRegSteps [RegStep.connect "u1" "s1" 0]) "u1" "s1") "u1" = 0
       ∧ "u1" ∉ getOnlineUsers (onDisconnect (applyRegSteps [RegStep.connect "u1" "s1" 0]) "u1" "s1")) :=
  ⟨by decide,
   (online_iff_registered_connection [RegStep.connect "u1" "s1" 0] "u1" "s1").2.2 (by decide)⟩

/-! ### System-level invariant and the presence disconnect transition -/

theorem regInv_applySysOp (st : SystemState) (op : SysOp) (h : RegInv st.registry) :
    RegInv (applySysOp st op).1.registry := by
  cases op with
  | connect u s now => exact regInv_onConnection _ u s now h
  | disconnect u s =>
      simp only [applySysOp]
      split
      · exact regInv_onDisconnect _ u s h
      · exact regInv_onDisconnect _ u s h
  | statusChange u status => exact h
  | heartbeat u now => exact regInv_onHeartbeat _ u now h

theorem regInv_runSysOps (ops : List SysOp) (st : SystemState)
    (h : RegInv st.registry) : RegInv (runSysOps st ops).registry := by
  induction ops generalizing st with
  | nil => exact h
  | cons op rest ih => exact ih _ (regInv_applySysOp st op h)

theorem regInv_applySysOps (ops : List SysOp) : RegInv (applySysOps ops).registry :=
  regInv_runSysOps ops initialSystem regInv_initial

/-- Claim C8: deregistering the last tab of a user always sets that user's
presence status to offline and broadcasts exactly one status-changed event;
deregistering a non-last tab broadcasts none and leaves the statuses map
untouched; and among all state-mutating socket events, a status change only
ever comes from the client-initiated presence:status_change handler or from
a disconnect that removed the user's last tab. -/
theorem last_tab_disconnect_sole_automatic_transition (ops : List SysOp) (u s t : String) :
    (findVal u (applySysOps ops).registry.userSockets = some [s] →
        (applySysOp (applySysOps ops) (SysOp.disconnect u s)).2 =
          [{ userId := u, status := UserStatus.offline }]
        ∧ findVal u (applySysOp (applySysOps ops) (SysOp.disconnect u s)).1.userStatuses =
            some UserStatus.offline)
    ∧ (∀ set, findVal u (applySysOps ops).registry.userSockets = some set →
        t ∈ set → t ≠ s →
        (applySysOp (applySysOps ops) (SysOp.disconnect u s)).2 = []
        ∧ (applySysOp (applySysOps ops) (SysOp.disconnect u s)).1.userStatuses =
            (applySysOps ops).userStatuses)
    ∧ (∀ op : SysOp,
        (applySysOp (applySysOps ops) op).1.userStatuses ≠ (applySysOps ops).userStatuses →
        (∃ v status, op = SysOp.statusChange v status)
        ∨ (∃ v s0, op = SysOp.disconnect v s0
            ∧ isUserOnline (onDisconnect (applySysOps ops).registry v s0) v = false)) := by
  have h := regInv_applySysOps ops
  refine ⟨?_, ?_, ?_⟩
  · intro hus
    have hafter := onDisconnect_last_tab (applySysOps ops).registry u s hus
    have hoff : isUserOnline (onDisconnect (applySysOps ops).registry u s) u = false := by
      rw [hafter, isUserOnline]
      simp [findVal_eraseVal_self]
    constructor
    · simp [applySysOp, hoff]
    · simp only [applySysOp, hoff, Bool.false_eq_true, if_false]
      exact findVal_setVal_self u UserStatus.offline _
  · intro set hus ht hts
    have hon := isUserOnline_onDisconnect_other_tab (applySysOps ops).registry u s t h hus ht hts
    constructor
    · simp [applySysOp, hon]
    · simp [applySysOp, hon]
  · intro op hchange
    cases op with
    | connect v s0 now => exact absurd rfl hchange
    | disconnect v s0 =>
        by_cases hon : isUserOnline (onDisconnect (applySysOps ops).registry v s0) v = true
        · exfalso
          apply hchange
          simp only [applySysOp, hon, if_true]
        · right
          exact ⟨v, s0, rfl, by simpa using hon⟩
    | statusChange v status => exact Or.inl ⟨v, status, rfl⟩
    | heartbeat v now => exact absurd rfl hchange

/-- Witness for claim C8: the last-tab branch on a one-tab trace and the
non-last-tab branch on a two-tab trace. -/
theorem last_tab_disconnect_sole_automatic_transition_witness :
    (findVal "u1" (applySysOps [SysOp.connect "u1" "s1" 0]).registry.userSockets = some ["s1"]
     ∧ (applySysOp (applySysOps [SysOp.connect "u1" "s1" 0]) (SysOp.disconnect "u1" "s1")).2 =
         [{ userId := "u1", status := UserStatus.offline }])
    ∧ (findVal "u1" (applySysOps [SysOp.connect "u1" "s1" 0, SysOp.connect "u1" "s2" 1]).registry.userSockets = some ["s1", "s2"]
       ∧ (applySysOp (applySysOps [SysOp.connect "u1" "s1" 0, SysOp.connect "u1" "s2" 1])
            (SysOp.disconnect "u1" "s1")).2 = []) :=
  ⟨⟨by decide,
    ((last_tab_disconnect_sole_automatic_transition [SysOp.connect "u1" "s1" 0] "u1" "s1" "t").1
      (by decide)).1⟩,
   ⟨by decide,
    ((last_tab_disconnect_sole_automatic_transition
        [SysOp.connect "u1" "s1" 0, SysOp.connect "u1" "s2" 1] "u1" "s1" "s2").2.1
      ["s1", "s2"] (by decide) (by decide) (by decide)).1⟩⟩

/-! ### Presence default-status disagreement -/

/-- Claim C9: for a user that is currently online but never explicitly set a
presence status, the presence:check_user reply defaults the status to
offline while presence:get_online_friends reports the same user as online,
against the same state. -/
theorem presence_default_status_disagreement (st : SystemState) (u : String)
    (hon : isUserOnline st.registry u = true)
    (hns : findVal u st.userStatuses = none) :
    (handleCheckUser st u).status = UserStatus.offline
    ∧ (handleCheckUser st u).isOnline = true
    ∧ (handleGetOnlineFriends st [u]).map OnlineFriendEntry.status = [UserStatus.online] := by
  refine ⟨?_, ?_, ?_⟩
  · simp [handleCheckUser, hns]
  · simp [handleCheckUser, hon]
  · simp [handleGetOnlineFriends, hon, hns]

/-- Witness for claim C9: a user with one connected tab and no explicit
status. -/
theorem presence_default_status_disagreement_witness :
    isUserOnline (applySysOps [SysOp.connect "u1" "s1" 0]).registry "u1" = true
    ∧ (handleCheckUser (applySysOps [SysOp.connect "u1" "s1" 0]) "u1").status = UserStatus.offline
    ∧ (handleGetOnlineFriends (applySysOps [SysOp.connect "u1" "s1" 0]) ["u1"]).map
        OnlineFriendEntry.status = [UserStatus.online] :=
  ⟨by decide,
   (presence_default_status_disagreement (applySysOps [SysOp.connect "u1" "s1" 0]) "u1"
      (by decide) (by decide)).1,
   (presence_default_status_disagreement (applySysOps [SysOp.connect "u1" "s1" 0]) "u1"
      (by decide) (by decide)).2.2⟩

/-! ### Message store lemmas -/

theorem findByIdAndUpdate_of_not_found (store : List MessageDoc) (msgId : String)
    (f : MessageDoc → MessageDoc) (h : findDoc store msgId = none) :
    findByIdAndUpdate store msgId f = (store, none) := by
  induction store with
  | nil => rfl
  | cons m rest ih =>
      by_cases hm : m.id = msgId
      · rw [findDoc, if_pos hm] at h
        exact absurd h (by simp)
      · rw [findDoc, if_neg hm] at h
        simp [findByIdAndUpdate, hm, ih h]

theorem findByIdAndUpdate_snd_of_found (store : List MessageDoc) (msgId : String)
    (f : MessageDoc → MessageDoc) (m : MessageDoc) (h : findDoc store msgId = some m) :
    (findByIdAndUpdate store msgId f).2 = some (f m) := by
  induction store with
  | nil => simp [findDoc] at h
  | cons x rest ih =>
      by_cases hx : x.id = msgId
      · rw [findDoc, if_pos hx] at h
        cases h
        simp [findByIdAndUpdate, hx]
      · rw [findDoc, if_neg hx] at h
        simp [findByIdAndUpdate, hx, ih h]

theorem findDoc_findByIdAndUpdate_self (store : List MessageDoc) (msgId : String)
    (f : MessageDoc → MessageDoc) (m : MessageDoc) (hid : ∀ x, (f x).id = x.id)
    (h : findDoc store msgId = some m) :
    findDoc (findByIdAndUpdate store msgId f).1 msgId = some (f m) := by
  induction store with
  | nil => simp [findDoc] at h
  | cons x rest ih =>
      by_cases hx : x.id = msgId
      · rw [findDoc, if_pos hx] at h
        cases h
        have hfx : (f m).id = msgId := by rw [hid m]; exact hx
        simp [findByIdAndUpdate, hx, findDoc, hfx]
      · rw [findDoc, if_neg hx] at h
        simp [findByIdAndUpdate, hx, findDoc, ih h]

theorem mem_addToSet_self (l : List String) (x : String) : x ∈ addToSet l x := by
  unfold addToSet
  by_cases h : x ∈ l
  · simpa [if_pos h] using h
  · simp [if_neg h]

theorem addToSet_of_mem {l : List String} {x : String} (h : x ∈ l) : addToSet l x = l := by
  simp [addToSet, if_pos h]

theorem count_addToSet_of_not_mem {l : List String} {x : String} (h : x ∉ l) :
    (addToSet l x).count x = l.count x + 1 := by
  simp [addToSet, if_neg h]

/-! ### Receipts: missing message (claim C10) -/

/-- Claim C10: a delivery or read receipt whose message id matches no stored
message leaves the store unchanged, emits no receipt event to any sender,
and the acknowledgement callback still reports success, making it
indistinguishable from a successful receipt at the public interface. -/
theorem receipt_for_missing_message_reports_success (store : List MessageDoc)
    (caller msgId : String) (h : findDoc store msgId = none) :
    handleMessageRead store caller msgId =
      (store, { success := true, error := none }, [])
    ∧ handleMessageDelivered store caller msgId =
      (store, { success := true, error := none }, []) := by
  constructor
  · simp [handleMessageRead, markAsRead, findByIdAndUpdate_of_not_found store msgId _ h]
  · simp [handleMessageDelivered, markAsDelivered, findByIdAndUpdate_of_not_found store msgId _ h]

/-- Witness for claim C10: a read receipt for an absent id over a one-message
store. -/
theorem receipt_for_missing_message_reports_success_witness :
    findDoc [sampleMsg] "nope" = none
    ∧ handleMessageRead [sampleMsg] "bob" "nope" =
        ([sampleMsg], { success := true, error := none }, []) :=
  ⟨by decide,
   (receipt_for_missing_message_reports_success [sampleMsg] "bob" "nope" (by decide)).1⟩

/-! ### Receipt monotonicity and commutativity (claim C1) -/

/-- Counterexample to claim C1 at a concrete one-message store: after a read
receipt alone the reader bob appears in readBy but not in deliveredTo, so
marking read does not imply delivered in the persisted sets; and the
aggregate status after read-then-delivered is delivered while after
delivered-then-read it is read, so the two orders do not yield the same
final state. -/
theorem receipt_monotonic_commutative_counterexample :
    ("bob" ∈ ((findDoc (markAsRead [sampleMsg] "m1" "bob").1 "m1").getD sampleMsg).readBy
     ∧ "bob" ∉ ((findDoc (markAsRead [sampleMsg] "m1" "bob").1 "m1").getD sampleMsg).deliveredTo)
    ∧ ((findDoc (markAsDelivered (markAsRead [sampleMsg] "m1" "bob").1 "m1" "bob").1
          "m1").getD sampleMsg).status = MessageStatus.delivered
    ∧ ((findDoc (markAsRead (markAsDelivered [sampleMsg] "m1" "bob").1 "m1" "bob").1
          "m1").getD sampleMsg).status = MessageStatus.read
    ∧ MessageStatus.delivered ≠ MessageStatus.read := by decide

/-- Claim C1 amended: the persisted deliveredTo and readBy sets themselves
are order-independent across the two receipts (both orders produce the same
two sets), but marking read inserts into readBy only — the reader is not
added to deliveredTo, so read does not imply delivered in the persisted
sets — and the aggregate status field is last-writer-wins: applying read
before delivered leaves status delivered, while delivered before read
leaves status read. -/
theorem receipt_sets_commute_status_last_writer_wins (store : List MessageDoc)
    (msgId b : String) (m : MessageDoc) (h : findDoc store msgId = some m) :
    (findDoc (markAsRead store msgId b).1 msgId = some (updateRead b m)
     ∧ b ∈ (updateRead b m).readBy
     ∧ (updateRead b m).deliveredTo = m.deliveredTo)
    ∧ (findDoc (markAsDelivered (markAsRead store msgId b).1 msgId b).1 msgId =
         some (updateDelivered b (updateRead b m))
       ∧ findDoc (markAsRead (markAsDelivered store msgId b).1 msgId b).1 msgId =
         some (updateRead b (updateDelivered b m)))
    ∧ ((updateDelivered b (updateRead b m)).deliveredTo =
         (updateRead b (updateDelivered b m)).deliveredTo
       ∧ (updateDelivered b (updateRead b m)).readBy =
         (updateRead b (updateDelivered b m)).readBy)
    ∧ (updateDelivered b (updateRead b m)).status = MessageStatus.delivered
    ∧ (updateRead b (updateDelivered b m)).status = MessageStatus.read := by
  have hidr : ∀ x, (updateRead b x).id = x.id := fun x => rfl
  have hidd : ∀ x, (updateDelivered b x).id = x.id := fun x => rfl
  have h1 : findDoc (markAsRead store msgId b).1 msgId = some (updateRead b m) :=
    findDoc_findByIdAndUpdate_self store msgId _ m hidr h
  have h2 : findDoc (markAsDelivered store msgId b).1 msgId = some (updateDelivered b m) :=
    findDoc_findByIdAndUpdate_self store msgId _ m hidd h
  refine ⟨⟨h1, mem_addToSet_self m.readBy b, rfl⟩, ⟨?_, ?_⟩, ⟨rfl, rfl⟩, rfl, rfl⟩
  · exact findDoc_findByIdAndUpdate_self _ msgId _ _ hidd h1
  · exact findDoc_findByIdAndUpdate_self _ msgId _ _ hidr h2

/-- Witness for the amended claim C1 at the concrete one-message store. -/
theorem receipt_sets_commute_status_last_writer_wins_witness :
    findDoc [sampleMsg] "m1" = some sampleMsg
    ∧ ((updateDelivered "bob" (updateRead "bob" sampleMsg)).deliveredTo =
         (updateRead "bob" (updateDelivered "bob" sampleMsg)).deliveredTo
       ∧ (updateDelivered "bob" (updateRead "bob" sampleMsg)).readBy =
         (updateRead "bob" (updateDelivered "bob" sampleMsg)).readBy) :=
  ⟨by decide,
   (receipt_sets_commute_status_last_writer_wins [sampleMsg] "m1" "bob" sampleMsg
      (by decide)).2.2.1⟩

/-! ### Read receipt idempotence (claim C3) -/

theorem handleMessageRead_found (store : List MessageDoc) (caller msgId : String)
    (m : MessageDoc) (h : findDoc store msgId = some m) :
    handleMessageRead store caller msgId =
      ((findByIdAndUpdate store msgId (updateRead caller)).1,
       { success := true, error := none },
       [{ target := m.sender, event := "chat:message_read_receipt", messageId := msgId,
          actor := caller }]) := by
  have hsnd := findByIdAndUpdate_snd_of_found store msgId (updateRead caller) m h
  simp [handleMessageRead, markAsRead, hsnd, updateRead]

/-- Counterexample to claim C3 at a concrete one-message store: after bob
reads message m1 twice, readBy holds bob exactly once and the second call
acknowledges success, but the second call emits the read-receipt event to
the sender again — a duplicate of the first call's event, contradicting the
claim that the second call produces no duplicate receipt event. -/
theorem read_receipt_idempotent_counterexample :
    ((findDoc (handleMessageRead (handleMessageRead [sampleMsg] "bob" "m1").1
        "bob" "m1").1 "m1").getD sampleMsg).readBy.count "bob" = 1
    ∧ (handleMessageRead (handleMessageRead [sampleMsg] "bob" "m1").1 "bob" "m1").2.1 =
        { success := true, error := none }
    ∧ (handleMessageRead (handleMessageRead [sampleMsg] "bob" "m1").1 "bob" "m1").2.2 =
        (handleMessageRead [sampleMsg] "bob" "m1").2.2
    ∧ (handleMessageRead (handleMessageRead [sampleMsg] "bob" "m1").1 "bob" "m1").2.2 ≠ [] := by
  decide

/-- Claim C3 amended: invoking the read receipt twice for the same message
and reader leaves exactly one entry for the reader in readBy and the second
call acknowledges success, but the second call re-emits one receipt event to
the sender, identical to the first call's event, rather than emitting
nothing. -/
theorem read_receipt_idempotent_store_but_reemits (store : List MessageDoc)
    (caller msgId : String) (m : MessageDoc) (h : findDoc store msgId = some m)
    (hnew : caller ∉ m.readBy) :
    (handleMessageRead store caller msgId).2.2 =
      [{ target := m.sender, event := "chat:message_read_receipt", messageId := msgId,
         actor := caller }]
    ∧ (handleMessageRead (handleMessageRead store caller msgId).1 caller msgId).2.1 =
      { success := true, error := none }
    ∧ (handleMessageRead (handleMessageRead store caller msgId).1 caller msgId).2.2 =
      (handleMessageRead store caller msgId).2.2
    ∧ ((findDoc (handleMessageRead (handleMessageRead store caller msgId).1 caller msgId).1
          msgId).getD m).readBy.count caller = 1 := by
  have hidr : ∀ x, (updateRead caller x).id = x.id := fun x => rfl
  have hfirst := handleMessageRead_found store caller msgId m h
  have h1 : findDoc (handleMessageRead store caller msgId).1 msgId =
      some (updateRead caller m) := by
    rw [hfirst]
    exact findDoc_findByIdAndUpdate_self store msgId _ m hidr h
  have hsecond := handleMessageRead_found (handleMessageRead store caller msgId).1 caller msgId
    (updateRead caller m) h1
  have h2 : findDoc (handleMessageRead (handleMessageRead store caller msgId).1 caller msgId).1
      msgId = some (updateRead caller (updateRead caller m)) := by
    rw [hsecond]
    exact findDoc_findByIdAndUpdate_self _ msgId _ _ hidr h1
  refine ⟨by rw [hfirst], by rw [hsecond], by rw [hsecond, hfirst]; rfl, ?_⟩
  rw [h2]
  have hmem : caller ∈ (updateRead caller m).readBy := mem_addToSet_self m.readBy caller
  have hcount1 : (updateRead caller m).readBy.count caller = 1 := by
    have h0 : m.readBy.count caller = 0 := List.count_eq_zero.mpr hnew
    have := count_addToSet_of_not_mem hnew
    rw [h0] at this
    exact this
  have heq : updateRead caller (updateRead caller m) =
      { updateRead caller m with status := MessageStatus.read } := by
    rw [updateRead, addToSet_of_mem hmem]
  rw [heq]
  simpa using hcount1

/-- Witness for the amended claim C3 at the concrete one-message store. -/
theorem read_receipt_idempotent_store_but_reemits_witness :
    (findDoc [sampleMsg] "m1" = some sampleMsg ∧ "bob" ∉ sampleMsg.readBy)
    ∧ ((findDoc (handleMessageRead (handleMessageRead [sampleMsg] "bob" "m1").1 "bob" "m1").1
          "m1").getD sampleMsg).readBy.count "bob" = 1 :=
  ⟨⟨by decide, by decide⟩,
   (read_receipt_idempotent_store_but_reemits [sampleMsg] "bob" "m1" sampleMsg
      (by decide) (by decide)).2.2.2⟩

/-! ### Non-participant rejection (claim C4) -/

/-- Claim C4: a caller outside the target conversation's participant list is
rejected everywhere: send-message acknowledges a permission error, appends
nothing to the message store and fans out no event; typing fans out no
event; join-room acknowledges the same permission error and the caller's
room set is unchanged. -/
theorem non_participant_rejected_no_store_write
    (convStore : List ConvDoc) (msgStore : List MessageDoc) (caller : String)
    (payload : SendMessagePayload) (rooms : List String) (newId : String) (now : Nat)
    (hnp : isParticipant convStore payload.conversationId caller = false)
    (hcid : payload.conversationId ≠ "") (hcontent : payload.content ≠ "") :
    handleSendMessage convStore msgStore caller payload newId now =
      (msgStore,
       { success := false, error := some "You are not a participant of this conversation" },
       [])
    ∧ handleTyping convStore caller payload.conversationId = []
    ∧ handleJoinRoom convStore caller payload.conversationId rooms =
      (rooms,
       { success := false, error := some "You are not a participant of this conversation" }) := by
  refine ⟨?_, ?_, ?_⟩
  · simp [handleSendMessage, hnp, hcid, hcontent]
  · simp [handleTyping, hnp, hcid]
  · simp [handleJoinRoom, hnp]

/-- Witness for claim C4: mallory, not a participant of c1, tries to send,
type and join. -/
theorem non_participant_rejected_no_store_write_witness :
    (isParticipant [sampleConv] "c1" "mallory" = false)
    ∧ handleSendMessage [sampleConv] [sampleMsg] "mallory"
        { conversationId := "c1", content := "pwn", messageType := "text",
          replyTo := none, fileUrl := none } "m9" 99 =
      ([sampleMsg],
       { success := false, error := some "You are not a participant of this conversation" },
       []) :=
  ⟨by decide,
   (non_participant_rejected_no_store_write [sampleConv] [sampleMsg] "mallory"
      { conversationId := "c1", content := "pwn", messageType := "text",
        replyTo := none, fileUrl := none } [] "m9" 99
      (by decide) (by decide) (by decide)).1⟩

/-! ### Admin kick and broadcast routing (claims C5 and C6)

Both handlers emit through the admin namespace. The room user colon userId
is joined only by default-namespace sockets, and no socket ever joins a
room named slash, so both emits reach no socket at all. -/

/-- Claim C5, evaluated at the failing input: alice has one live tab on the
default namespace and the registry records her as online, so admin:kick_user
acknowledges success — but the admin:kicked emit goes to the room user:alice
of the admin namespace, which no socket joined, so none of alice's tabs
receives it. The not-online branch behaves as claimed: a distinct failure
acknowledgement and no emit. -/
theorem admin_kick_emits_to_empty_admin_room :
    (isUserOnline (applyRegSteps [RegStep.connect "alice" "s1" 0]) "alice" = true
     ∧ (handleKickUser [defaultConn "alice" "s1", adminConn "root" "a1"]
          (applyRegSteps [RegStep.connect "alice" "s1" 0]) "alice").ack =
        { success := true, error := none }
     ∧ (handleKickUser [defaultConn "alice" "s1", adminConn "root" "a1"]
          (applyRegSteps [RegStep.connect "alice" "s1" 0]) "alice").recipients = []
     ∧ (nsEmitRecipients [defaultConn "alice" "s1", adminConn "root" "a1"] "/"
          ("user:" ++ "alice")).map SocketConn.id = ["s1"])
    ∧ (handleKickUser [defaultConn "alice" "s1", adminConn "root" "a1"]
         initialRegistry "bob" =
       { ack := { success := false, error := some "User is not online" },
         recipients := [] }) := by decide

/-- Claim C6, evaluated at the failing input: two users are connected on the
default namespace, but admin:broadcast_message emits admin:system_message
through the admin namespace to the room named slash, which no socket joined,
so no default-channel connection receives the broadcast. -/
theorem admin_broadcast_reaches_no_default_connection :
    (handleBroadcastMessage
        [defaultConn "alice" "s1", defaultConn "bob" "s2", adminConn "root" "a1"]).recipients = []
    ∧ (defaultChannelConns
        [defaultConn "alice" "s1", defaultConn "bob" "s2", adminConn "root" "a1"]).map
        SocketConn.id = ["s1", "s2"]
    ∧ ["s1", "s2"] ≠ ([] : List String) := by decide

/-! ### Paginated fetch (claim C7) -/

theorem getConversationMessages_eq (store : List MessageDoc) (convId userId : String)
    (opts : MessageQueryOptions) :
    getConversationMessages store convId userId opts =
      { data :=
          (if decide (opts.limit.getD 50 <
              (((List.insertionSort byCreatedDesc
                  (store.filter (messageMatchesQuery convId userId opts))).drop
                  ((opts.page.getD 1 - 1) * opts.limit.getD 50)).take
                  (opts.limit.getD 50 + 1)).length) = true
            then (((List.insertionSort byCreatedDesc
                  (store.filter (messageMatchesQuery convId userId opts))).drop
                  ((opts.page.getD 1 - 1) * opts.limit.getD 50)).take
                  (opts.limit.getD 50 + 1)).take (opts.limit.getD 50)
            else ((List.insertionSort byCreatedDesc
                  (store.filter (messageMatchesQuery convId userId opts))).drop
                  ((opts.page.getD 1 - 1) * opts.limit.getD 50)).take
                  (opts.limit.getD 50 + 1)).reverse
        total := (store.filter (messageMatchesQuery convId userId opts)).length
        page := opts.page.getD 1
        limit := opts.limit.getD 50
        hasMore := decide (opts.limit.getD 50 <
          (((List.insertionSort byCreatedDesc
              (store.filter (messageMatchesQuery convId userId opts))).drop
              ((opts.page.getD 1 - 1) * opts.limit.getD 50)).take
              (opts.limit.getD 50 + 1)).length)
        countQueries := 1 } := rfl

theorem getConversationMessages_spec (store : List MessageDoc) (convId userId : String)
    (opts : MessageQueryOptions) :
    List.Pairwise (fun a b => a.createdAt ≤ b.createdAt)
      (getConversationMessages store convId userId opts).data
    ∧ (∀ m ∈ (getConversationMessages store convId userId opts).data,
        messageMatchesQuery convId userId opts m = true)
    ∧ ((getConversationMessages store convId userId opts).hasMore = true ↔
        (opts.page.getD 1 - 1) * opts.limit.getD 50 + opts.limit.getD 50 <
          (store.filter (messageMatchesQuery convId userId opts)).length)
    ∧ (getConversationMessages store convId userId opts).total =
        (store.filter (messageMatchesQuery convId userId opts)).length
    ∧ (getConversationMessages store convId userId opts).countQueries = 1 := by
  rw [getConversationMessages_eq]
  set F := store.filter (messageMatchesQuery convId userId opts) with hF
  set S := List.insertionSort byCreatedDesc F with hS
  set limit := opts.limit.getD 50 with hlimit
  set skip := (opts.page.getD 1 - 1) * limit with hskip
  set results := (S.drop skip).take (limit + 1) with hresults
  have hperm : List.Perm S F := List.perm_insertionSort byCreatedDesc F
  have hsorted : List.Sorted byCreatedDesc S := List.sorted_insertionSort byCreatedDesc F
  have hsub1 : List.Sublist results S := (List.take_sublist _ _).trans (List.drop_sublist _ _)
  have hsubD : List.Sublist (if decide (limit < results.length) = true
      then results.take limit else results) S := by
    by_cases hm : decide (limit < results.length) = true
    · rw [if_pos hm]
      exact (List.take_sublist _ _).trans hsub1
    · rw [if_neg hm]
      exact hsub1
  have hpw : List.Pairwise byCreatedDesc
      (if decide (limit < results.length) = true then results.take limit else results) :=
    List.Pairwise.sublist hsubD hsorted
  refine ⟨?_, ?_, ?_, rfl, rfl⟩
  · exact List.pairwise_reverse.mpr hpw
  · intro m hm
    rw [List.mem_reverse] at hm
    have hmS : m ∈ S := hsubD.subset hm
    have hmF : m ∈ F := hperm.mem_iff.mp hmS
    exact (List.mem_filter.mp hmF).2
  · rw [decide_eq_true_eq]
    have hlen : results.length = min (limit + 1) (S.length - skip) := by
      rw [hresults, List.length_take, List.length_drop]
    have hslen : S.length = F.length := hperm.length_eq
    rw [hlen, hslen]
    constructor
    · intro hlt
      have h2 := (lt_min_iff.mp hlt).2
      omega
    · intro hlt
      rw [lt_min_iff]
      omega

theorem handleGetMessages_participant (convStore : List ConvDoc) (msgStore : List MessageDoc)
    (caller : String) (payload : GetMessagesPayload)
    (hp : isParticipant convStore payload.conversationId caller = true) :
    handleGetMessages convStore msgStore caller payload =
      { success := true, error := none
        messages := (getConversationMessages msgStore payload.conversationId caller
          { page := some (payload.page.getD 1), limit := some (payload.limit.getD 50),
            beforeDate := payload.beforeDate, afterDate := none, messageType := none }).data
        total := (getConversationMessages msgStore payload.conversationId caller
          { page := some (payload.page.getD 1), limit := some (payload.limit.getD 50),
            beforeDate := payload.beforeDate, afterDate := none, messageType := none }).total
        page := (getConversationMessages msgStore payload.conversationId caller
          { page := some (payload.page.getD 1), limit := some (payload.limit.getD 50),
            beforeDate := payload.beforeDate, afterDate := none, messageType := none }).page
        limit := (getConversationMessages msgStore payload.conversationId caller
          { page := some (payload.page.getD 1), limit := some (payload.limit.getD 50),
            beforeDate := payload.beforeDate, afterDate := none, messageType := none }).limit
        hasMore := (getConversationMessages msgStore payload.conversationId caller
          { page := some (payload.page.getD 1), limit := some (payload.limit.getD 50),
            beforeDate := payload.beforeDate, afterDate := none, messageType := none }).hasMore
        countQueries := (getConversationMessages msgStore payload.conversationId caller
          { page := some (payload.page.getD 1), limit := some (payload.limit.getD 50),
            beforeDate := payload.beforeDate, afterDate := none, messageType := none }).countQueries } := by
  simp [handleGetMessages, hp]

/-- Counterexample to claim C7 as stated, at a concrete store: the fetch
issues one separate countDocuments query on the hot path (countQueries is
one, not zero), and an afterDate cursor sent by the client is ignored by
chat:get_messages: with afterDate one hundred the result still contains the
message created at time ten, identical to the result without the cursor. -/
theorem get_messages_count_query_counterexample :
    (handleGetMessages [sampleConv] [sampleMsg] "bob"
        { conversationId := "c1", page := none, limit := none, beforeDate := none,
          afterDate := none }).countQueries = 1
    ∧ handleGetMessages [sampleConv] [sampleMsg] "bob"
        { conversationId := "c1", page := none, limit := none, beforeDate := none,
          afterDate := some 100 } =
      handleGetMessages [sampleConv] [sampleMsg] "bob"
        { conversationId := "c1", page := none, limit := none, beforeDate := none,
          afterDate := none }
    ∧ (handleGetMessages [sampleConv] [sampleMsg] "bob"
        { conversationId := "c1", page := none, limit := none, beforeDate := none,
          afterDate := some 100 }).messages = [sampleMsg]
    ∧ ¬ (100 < sampleMsg.createdAt) := by decide

/-- Claim C7 amended: chat:get_messages returns messages oldest-first
(queried newest-first internally, then reversed), excludes every message the
caller soft-deleted and every globally deleted message, supports page, limit
and a beforeDate cursor, and decides hasMore by over-fetching limit plus one
rows; but an afterDate field sent by the client is ignored (it is supported
at the repository layer only and never forwarded by the handler), and a
separate countDocuments query is still issued on every fetch to fill the
total field — hasMore does not depend on it. -/
theorem get_messages_oldest_first_overfetch_with_count_query
    (convStore : List ConvDoc) (msgStore : List MessageDoc) (caller : String)
    (payload : GetMessagesPayload)
    (hp : isParticipant convStore payload.conversationId caller = true) :
    (handleGetMessages convStore msgStore caller payload).success = true
    ∧ List.Pairwise (fun a b => a.createdAt ≤ b.createdAt)
        (handleGetMessages convStore msgStore caller payload).messages
    ∧ (∀ m ∈ (handleGetMessages convStore msgStore caller payload).messages,
        m.conversation = payload.conversationId ∧ m.isDeleted = false
        ∧ caller ∉ m.deletedFor
        ∧ ∀ b, payload.beforeDate = some b → m.createdAt < b)
    ∧ ((handleGetMessages convStore msgStore caller payload).hasMore = true ↔
        (payload.page.getD 1 - 1) * payload.limit.getD 50 + payload.limit.getD 50 <
          (msgStore.filter (messageMatchesQuery payload.conversationId caller
            { page := some (payload.page.getD 1), limit := some (payload.limit.getD 50),
              beforeDate := payload.beforeDate, afterDate := none,
              messageType := none })).length)
    ∧ (handleGetMessages convStore msgStore caller payload).countQueries = 1
    ∧ (∀ ad, handleGetMessages convStore msgStore caller { payload with afterDate := ad } =
        handleGetMessages convStore msgStore caller payload) := by
  have hh := handleGetMessages_participant convStore msgStore caller payload hp
  have hspec := getConversationMessages_spec msgStore payload.conversationId caller
    { page := some (payload.page.getD 1), limit := some (payload.limit.getD 50),
      beforeDate := payload.beforeDate, afterDate := none, messageType := none }
  refine ⟨by rw [hh], ?_, ?_, ?_, by rw [hh]; exact hspec.2.2.2.2, fun ad => rfl⟩
  · rw [hh]
    exact hspec.1
  · rw [hh]
    intro m hm
    have hq := hspec.2.1 m hm
    simp only [messageMatchesQuery, Bool.and_eq_true, decide_eq_true_eq] at hq
    refine ⟨hq.1.1.1.1.1, hq.1.1.1.1.2, hq.1.1.1.2, ?_⟩
    intro b hb
    have hbd := hq.1.2
    rw [hb] at hbd
    simpa using hbd
  · rw [hh]
    have := hspec.2.2.1
    simpa using this

/-- Witness for the amended claim C7: bob fetches the one-message store of
conversation c1 with page one and limit one. -/
theorem get_messages_oldest_first_overfetch_with_count_query_witness :
    isParticipant [sampleConv] "c1" "bob" = true
    ∧ (handleGetMessages [sampleConv] [sampleMsg] "bob"
        { conversationId := "c1", page := some 1, limit := some 1, beforeDate := none,
          afterDate := none }).success = true :=
  ⟨by decide,
   (get_messages_oldest_first_overfetch_with_count_query [sampleConv] [sampleMsg] "bob"
      { conversationId := "c1", page := some 1, limit := some 1, beforeDate := none,
        afterDate := none } (by decide)).1⟩

end SocialMedia
